import Mathlib

/- Verification of the semantic-analysis core of the elen language server
   (src/symbol.go and src/server.go): scope table, symbol builder, position
   resolver, type inferencer, and the hover / definition / diagnostics
   pipeline.

   Conventions of the embedding:
   * Go pointers that may be nil become Option values; Go int becomes Int.
   * A token stores a one-based line and a one-based column that points just
     past the token text (the interface convention of the external
     ayla-lang lexer, spec section 4.3); posInsideTok in src/server.go
     reconstructs the span by subtracting the literal length.
   * A Go panic recovered by buildInScope is the Bool component of
     buildStmt being false; the recover is installed per buildInScope call,
     so a panic aborts only the innermost buildInScope invocation.
   * Go maps keyed by name become association lists; Scope.Define refuses
     duplicate keys exactly as the Go code panics on them, so insertion
     order never matters for lookup results.
-/

namespace Elen

/-- Source token of the external lexer: one-based line, one-based column
pointing just past the token, and the literal text. -/
structure Token where
  line : Int
  column : Int
  literal : String
  deriving DecidableEq

/-- Zero-based editor position, as in the LSP structures of src/server.go. -/
structure Position where
  line : Int
  character : Int
  deriving DecidableEq

/-- Zero-based editor range. The Go field named End is called stop here
because end is a reserved word. -/
structure Range where
  start : Position
  stop : Position
  deriving DecidableEq

/-- parser.Identifier: the token of its NodeBase plus the identifier text. -/
structure Identifier where
  tok : Token
  value : String
  deriving DecidableEq

/-- parser.TypeNode shapes used by the server: IdentType, ArrayType and
StructType (of which only the field names are consulted). -/
inductive TypeNode where
  | identType (name : String)
  | arrayType (elem : TypeNode)
  | structType (fieldNames : List String)
  deriving DecidableEq

/-- parser function parameter: its token, name identifier and declared type. -/
structure Param where
  tok : Token
  name : Identifier
  type : TypeNode
  deriving DecidableEq

/-- parser.Expression shapes consulted by src/server.go. Literal payloads are
omitted because neither the builder, the resolver nor the inferencer reads
them. -/
inductive Expr where
  | identExpr (id : Identifier)
  | intLit
  | floatLit
  | stringLit
  | boolLit
  | arrayLit (elems : List Expr)
  | anonStructLit
  | structLit (typeName : Identifier) (fields : List Expr)
  | infixExpr (left right : Expr)
  | prefixExpr (right : Expr)
  | indexExpr (left index : Expr)
  | memberExpr (left field : Expr)
  | funcCall (name : Identifier) (args : List Expr)

/-- parser.Statement shapes consulted by src/symbol.go and src/server.go.
The typeStmt constructor keeps the token of the statement NodeBase because
walkForIdent builds its synthetic identifier from it. -/
inductive Stmt where
  | varStmt (name : Identifier) (type? : Option TypeNode) (value? : Option Expr)
  | varNoKeyword (name : Identifier) (value? : Option Expr)
  | constStmt (name : Identifier) (type? : Option TypeNode) (value? : Option Expr)
  | multiVarStmt (names : List Identifier) (type? : Option TypeNode) (value? : Option Expr)
  | multiVarNoKeyword (names : List Identifier) (value? : Option Expr)
  | multiConstStmt (names : List Identifier) (type? : Option TypeNode) (value? : Option Expr)
  | funcStmt (name : Identifier) (params : List Param) (body : List Stmt)
  | typeStmt (tok : Token) (name : Identifier) (type : TypeNode)
  | assignStmt (name : Identifier) (value : Expr)
  | multiAssignStmt (names : List Identifier) (value : Expr)
  | indexAssignStmt (left index value : Expr)
  | exprStmt (e : Expr)
  | ifStmt (condition : Expr) (consequence : List Stmt) (alternative : List Stmt)
  | forStmt (init? : Option Stmt) (condition? : Option Expr) (post? : Option Stmt)
      (body : List Stmt)
  | whileStmt (condition : Expr) (body : List Stmt)
  | spawnStmt (body : List Stmt)

/-- SymbolKind of src/symbol.go. -/
inductive SymbolKind where
  | symVar
  | symConst
  | symFunc
  | symParam
  | symType
  | symUserType
  | symStructField
  deriving DecidableEq

/-- Symbol of src/symbol.go. The Parent back reference is never read by the
server code, so it is not modelled. -/
structure Symbol where
  kind : SymbolKind
  name : String
  ident : Option Identifier
  type : Option TypeNode
  value : Option Expr

/-- The name-to-symbol map of one scope, as an association list. -/
abbrev Bindings := List (String × Symbol)

/-- Lookup in one scope map. -/
def lookupB : Bindings → String → Option Symbol
  | [], _ => none
  | (n, sym) :: rest, name => if n = name then some sym else lookupB rest name

/-- Scope.Define of src/symbol.go: none models the redeclaration panic. -/
def defineB (syms : Bindings) (sym : Symbol) : Option Bindings :=
  match lookupB syms sym.name with
  | some _ => none
  | none => some ((sym.name, sym) :: syms)

/-- Scope of src/symbol.go: bindings plus an optional parent. -/
inductive Scope where
  | root (symbols : Bindings)
  | child (symbols : Bindings) (parent : Scope)

/-- Scope.Resolve of src/symbol.go: linear walk up the parent chain. -/
def Scope.Resolve : Scope → String → Option Symbol
  | .root syms, name => lookupB syms name
  | .child syms parent, name =>
    match lookupB syms name with
    | some sym => some sym
    | none => parent.Resolve name

/-- The scope maps of a chain, innermost first. -/
def Scope.frames : Scope → List Bindings
  | .root syms => [syms]
  | .child syms parent => syms :: parent.frames

/-- Sequential Scope.Define calls; false in the second component records the
redeclaration panic after which no further symbol of the list is defined. -/
def defineAll : Bindings → List Symbol → Bindings × Bool
  | syms, [] => (syms, true)
  | syms, sym :: rest =>
    match defineB syms sym with
    | none => (syms, false)
    | some syms2 => defineAll syms2 rest

/-- Display name a TypeStatement stores for its declared type; none models
the panic of the default branch (any shape other than IdentType or
StructType). -/
def typeStmtName : TypeNode → Option String
  | .identType name => some name
  | .structType fieldNames =>
      some ("struct \x7b\n" ++ String.join (fieldNames.map (fun f => f ++ "\n")) ++ "\x7d")
  | .arrayType _ => none

mutual

/-- One iteration of the statement loop of buildInScope in src/symbol.go.
The Bool is false when a recovered panic aborts the current buildInScope
call; nested buildInScope calls recover their own panics, so they never
make it false. Nested scopes are built and then discarded, exactly as the
Go code drops every scope except the root it returns. -/
def buildStmt (syms : Bindings) : Stmt → Bindings × Bool
  | .varStmt name type? value? =>
      defineAll syms [⟨.symVar, name.value, some name, type?, value?⟩]
  | .varNoKeyword name value? =>
      defineAll syms [⟨.symVar, name.value, some name, none, value?⟩]
  | .constStmt name type? value? =>
      defineAll syms [⟨.symConst, name.value, some name, type?, value?⟩]
  | .multiVarStmt names type? value? =>
      defineAll syms (names.map (fun nm => ⟨.symVar, nm.value, some nm, type?, value?⟩))
  | .multiVarNoKeyword names value? =>
      defineAll syms (names.map (fun nm => ⟨.symVar, nm.value, some nm, none, value?⟩))
  | .multiConstStmt names type? value? =>
      defineAll syms (names.map (fun nm => ⟨.symConst, nm.value, some nm, type?, value?⟩))
  | .funcStmt name params body =>
      match defineB syms ⟨.symFunc, name.value, some name, none, none⟩ with
      | none => (syms, false)
      | some syms2 =>
        match defineAll []
            (params.map (fun p => ⟨.symParam, p.name.value, some p.name, some p.type, none⟩)) with
        | (_, false) => (syms2, false)
        | (fnSyms, true) =>
          let _ := buildInScope fnSyms body
          (syms2, true)
  | .typeStmt _ name type =>
      match typeStmtName type with
      | none => (syms, false)
      | some tn =>
          defineAll syms [⟨.symUserType, name.value, some name, some (.identType tn), none⟩]
  | .forStmt init? _ _ body =>
      -- The Go code runs buildInScope(loopScope, [s.Init]); on the
      -- one-element list that call processes exactly the one statement and
      -- returns the bindings it leaves whether or not it panics, which is
      -- the first component of buildStmt (see buildInScope_singleton).
      let loopSyms :=
        match init? with
        | some init => (buildStmt [] init).1
        | none => []
      let _ := buildInScope loopSyms body
      (syms, true)
  | .whileStmt _ body =>
      let _ := buildInScope [] body
      (syms, true)
  | .ifStmt _ consequence alternative =>
      let _ := buildInScope [] consequence
      let _ := buildInScope [] alternative
      (syms, true)
  | .assignStmt _ _ => (syms, true)
  | .multiAssignStmt _ _ => (syms, true)
  | .indexAssignStmt _ _ _ => (syms, true)
  | .exprStmt _ => (syms, true)
  | .spawnStmt _ => (syms, true)
termination_by structural s => s

/-- buildInScope of src/symbol.go restricted to the bindings of the scope it
fills: on the first recovered panic the remaining statements of this scope
are skipped. -/
def buildInScope (syms : Bindings) : List Stmt → Bindings
  | [] => syms
  | stmt :: rest =>
    match buildStmt syms stmt with
    | (syms2, true) => buildInScope syms2 rest
    | (syms2, false) => syms2
termination_by structural stmts => stmts

end

/-- buildInScope on a one-element list is one buildStmt step: the bindings
it leaves are kept whether or not the statement panicked, because the list
ends either way. -/
theorem buildInScope_singleton (syms : Bindings) (s : Stmt) :
    buildInScope syms [s] = (buildStmt syms s).1 := by
  simp only [buildInScope]
  split
  next syms2 hb => rw [hb]
  next syms2 hb => rw [hb]

/-- The built-in primitive type names of BuildSymbols. -/
def builtinNames : List String := ["int", "float", "string", "bool", "arr"]

/-- The symbol BuildSymbols pre-defines for a built-in type name. -/
def builtinSymbol (t : String) : Symbol := ⟨.symType, t, none, none, none⟩

/-- Root bindings after the builtin loop of BuildSymbols and before any user
statement is visited. -/
def rootBuiltins : Bindings := (defineAll [] (builtinNames.map builtinSymbol)).1

/-- BuildSymbols of src/symbol.go: the returned root scope. The child scopes
created during the build carry no link from the root, so the root is all a
caller can reach. -/
def BuildSymbols (stmts : List Stmt) : Scope :=
  .root (buildInScope rootBuiltins stmts)

/-- posInsideTok of src/server.go: zero-based span test against a token whose
stored column points just past the token text. -/
def posInsideTok (tok : Token) (pos : Position) : Bool :=
  let line := tok.line - 1
  let startCol0 := tok.column - 1
  let endCol := startCol0
  let startCol := startCol0 - (tok.literal.length : Int)
  if pos.line ≠ line then false
  else decide (startCol ≤ pos.character ∧ pos.character < endCol)

/-- The Identifier case of walkForIdent. -/
def walkIdent (id : Identifier) (pos : Position) : Option Identifier :=
  if posInsideTok id.tok pos then some id else none

/-- The "if res is not nil return res" chaining of walkForIdent. -/
def orFirst (a b : Option Identifier) : Option Identifier :=
  match a with
  | some res => some res
  | none => b

/-- walkForIdent applied to a type annotation node: the type switch of
walkForIdent has no case for any TypeNode shape, so the walk yields nil. -/
def walkDeclaredType (_type : TypeNode) (_pos : Position) : Option Identifier :=
  none

/-- walkForIdent applied to a function parameter node: the type switch of
walkForIdent has no case for the parameter shape, so the walk yields nil. -/
def walkParams (_params : List Param) (_pos : Position) : Option Identifier :=
  none

/-- walkForIdent over an optional type annotation. -/
def walkOptType (type? : Option TypeNode) (pos : Position) : Option Identifier :=
  match type? with
  | some t => walkDeclaredType t pos
  | none => none

/-- walkForIdent over a list of declared names. -/
def walkIdentList (names : List Identifier) (pos : Position) : Option Identifier :=
  match names with
  | [] => none
  | nm :: rest => orFirst (walkIdent nm pos) (walkIdentList rest pos)

mutual

/-- walkForIdent of src/server.go on expression nodes. Literal nodes,
array literals and anonymous struct literals have no case in the type
switch, so they yield nil. -/
def walkExpr (pos : Position) : Expr → Option Identifier
  | .identExpr id => walkIdent id pos
  | .infixExpr left right => orFirst (walkExpr pos left) (walkExpr pos right)
  | .indexExpr left index => orFirst (walkExpr pos left) (walkExpr pos index)
  | .prefixExpr right => walkExpr pos right
  | .memberExpr left field => orFirst (walkExpr pos left) (walkExpr pos field)
  | .funcCall name args => orFirst (walkIdent name pos) (walkExprList pos args)
  | .structLit typeName fields => orFirst (walkIdent typeName pos) (walkExprList pos fields)
  | .intLit => none
  | .floatLit => none
  | .stringLit => none
  | .boolLit => none
  | .arrayLit _ => none
  | .anonStructLit => none
termination_by structural e => e

/-- walkForIdent over an expression list (call arguments, struct literal
fields). -/
def walkExprList (pos : Position) : List Expr → Option Identifier
  | [] => none
  | e :: rest => orFirst (walkExpr pos e) (walkExprList pos rest)
termination_by structural es => es

end

/-- walkForIdent over an optional initializer expression. -/
def walkOptExpr (pos : Position) (value? : Option Expr) : Option Identifier :=
  match value? with
  | some v => walkExpr pos v
  | none => none

mutual

/-- walkForIdent of src/server.go on statement nodes. The TypeStatement case
returns a synthetic identifier carrying the display name of the declared
type without any position test; the no-keyword declaration forms have no
case in the type switch and yield nil. -/
def walkStmt (pos : Position) : Stmt → Option Identifier
  | .exprStmt e => walkExpr pos e
  | .typeStmt tok _ type =>
    match type with
    | .identType name => some ⟨tok, name⟩
    | .structType fieldNames =>
        some ⟨tok, "struct \x7b\n" ++ String.join (fieldNames.map (fun f => f ++ "\n")) ++ "\x7d"⟩
    | .arrayType _ => some ⟨tok, "unknown"⟩
  | .varStmt name type? value? =>
      orFirst (walkIdent name pos) (orFirst (walkOptType type? pos) (walkOptExpr pos value?))
  | .constStmt name type? value? =>
      orFirst (walkIdent name pos) (orFirst (walkOptType type? pos) (walkOptExpr pos value?))
  | .multiVarStmt names type? value? =>
      orFirst (walkIdentList names pos) (orFirst (walkOptType type? pos) (walkOptExpr pos value?))
  | .multiConstStmt names type? value? =>
      orFirst (walkIdentList names pos) (orFirst (walkOptType type? pos) (walkOptExpr pos value?))
  | .varNoKeyword _ _ => none
  | .multiVarNoKeyword _ _ => none
  | .assignStmt name value => orFirst (walkIdent name pos) (walkExpr pos value)
  | .multiAssignStmt names value => orFirst (walkIdentList names pos) (walkExpr pos value)
  | .indexAssignStmt left index value =>
      orFirst (walkExpr pos left) (orFirst (walkExpr pos index) (walkExpr pos value))
  | .funcStmt name params body =>
      orFirst (walkIdent name pos) (orFirst (walkParams params pos) (walkStmtList pos body))
  | .spawnStmt body => walkStmtList pos body
  | .ifStmt condition consequence alternative =>
      orFirst (walkExpr pos condition)
        (orFirst (walkStmtList pos consequence) (walkStmtList pos alternative))
  | .forStmt init? condition? post? body =>
      orFirst (match init? with | some init => walkStmt pos init | none => none)
        (orFirst (walkOptExpr pos condition?)
          (orFirst (match post? with | some post => walkStmt pos post | none => none)
            (walkStmtList pos body)))
  | .whileStmt condition body => orFirst (walkExpr pos condition) (walkStmtList pos body)
termination_by structural s => s

/-- The statement loop shared by findIdentAt and the statement-body cases of
walkForIdent. -/
def walkStmtList (pos : Position) : List Stmt → Option Identifier
  | [] => none
  | s :: rest => orFirst (walkStmt pos s) (walkStmtList pos rest)
termination_by structural stmts => stmts

end

/-- findIdentAt of src/server.go. -/
def findIdentAt (stmts : List Stmt) (pos : Position) : Option Identifier :=
  walkStmtList pos stmts

/-- sameTypeNode of src/server.go: structural type equality. Any shape other
than IdentType or ArrayType on the left falls to the default false branch,
as does any mismatched pair of shapes. -/
def sameTypeNode : TypeNode → TypeNode → Bool
  | .identType a, .identType b => a == b
  | .arrayType a, .arrayType b => sameTypeNode a b
  | _, _ => false

/-- isIdent of src/server.go. -/
def isIdent (t : TypeNode) (name : String) : Bool :=
  match t with
  | .identType n => n == name
  | _ => false

mutual

/-- inferExprType of src/server.go. Index, member and call expressions have
no case in the type switch, so they infer to none (unknown). -/
def inferExprType (scope : Scope) : Expr → Option TypeNode
  | .intLit => some (.identType "int")
  | .floatLit => some (.identType "float")
  | .stringLit => some (.identType "string")
  | .boolLit => some (.identType "bool")
  | .arrayLit elems =>
    match elems with
    | [] => none
    | e :: rest =>
      match inferExprType scope e with
      | none => none
      | some elemType =>
        if elemsMatch scope elemType rest then some (.arrayType elemType) else none
  | .anonStructLit => some (.identType "struct")
  | .structLit typeName _ => some (.identType typeName.value)
  | .infixExpr left right =>
    match inferExprType scope left, inferExprType scope right with
    | some l, some r =>
      if sameTypeNode l r then some l
      else if (isIdent l "int" && isIdent r "float") || (isIdent l "float" && isIdent r "int")
      then some (.identType "float")
      else none
    | _, _ => none
  | .prefixExpr right => inferExprType scope right
  | .identExpr id =>
    match scope.Resolve id.value with
    | none => none
    | some sym => sym.type
  | .indexExpr _ _ => none
  | .memberExpr _ _ => none
  | .funcCall _ _ => none
termination_by structural e => e

/-- The element loop of the array literal case of inferExprType: every
remaining element must infer to a type structurally identical to the first. -/
def elemsMatch (scope : Scope) (elemType : TypeNode) : List Expr → Bool
  | [] => true
  | el :: rest =>
    match inferExprType scope el with
    | none => false
    | some t => sameTypeNode elemType t && elemsMatch scope elemType rest
termination_by structural es => es

end

/-- typeNodeToString of src/server.go on a non-nil TypeNode. -/
def typeNodeToStringCore : TypeNode → String
  | .identType name => name
  | .arrayType elem => "[]" ++ typeNodeToStringCore elem
  | .structType _ => "struct"

/-- typeNodeToString of src/server.go: nil renders as "unknown". -/
def typeNodeToString : Option TypeNode → String
  | none => "unknown"
  | some t => typeNodeToStringCore t

/-- hoverFromSymbol of src/server.go. -/
def hoverFromSymbol (sym : Symbol) : String :=
  let typeStr := typeNodeToString sym.type
  match sym.kind with
  | .symVar => "```ayla\negg " ++ sym.name ++ " " ++ typeStr ++ "\n```"
  | .symConst => "```ayla\nrock " ++ sym.name ++ " " ++ typeStr ++ "\n```"
  | .symFunc => "```ayla\nfun " ++ sym.name ++ " (...)\n```"
  | .symParam => "```ayla\nparam " ++ sym.name ++ " " ++ typeStr ++ "\n```"
  | .symStructField => "```ayla\nfield " ++ sym.name ++ " " ++ typeStr ++ "\n```"
  | .symType => "```ayla\ntype " ++ sym.name ++ "\n```"
  | .symUserType => "```ayla\ntype " ++ sym.name ++ " " ++ typeStr ++ "\n```"

/-- Outcome of one request: an explicit response carrying an optional result,
no response at all (the bare return in handleDefinition), or a crash of the
request loop (a nil dereference that no recover catches). -/
inductive Reply (α : Type) where
  | sent (result : Option α)
  | noReply
  | crashed
  deriving DecidableEq

/-- The lazy inference step of handleHover: a symbol without a declared type
but with an initializer gets its type slot filled from the inferred type.
-/
def lazyInfer (rootScope : Scope) (sym : Symbol) : Symbol :=
  match sym.type, sym.value with
  | none, some value =>
    match inferExprType rootScope value with
    | some inferred => { sym with type := some inferred }
    | none => sym
  | _, _ => sym

/-- handleHover of src/server.go from the parsed program onward (transport,
document store and parsing are external). -/
def hoverReply (stmts : List Stmt) (pos : Position) : Reply String :=
  let rootScope := BuildSymbols stmts
  match findIdentAt stmts pos with
  | none => Reply.sent none
  | some ident =>
    match rootScope.Resolve ident.value with
    | none => Reply.sent none
    | some sym =>
      Reply.sent (some (hoverFromSymbol (lazyInfer rootScope sym)))

/-- handleDefinition of src/server.go from the parsed program onward. When
the identifier resolves to no symbol the handler returns without sending
any response; when it resolves to a builtin symbol, whose Ident is nil,
the Pos call dereferences a nil pointer. The returned range starts at the
stored declaration column minus one and spans the length of the identifier
text under the cursor. -/
def definitionReply (stmts : List Stmt) (pos : Position) : Reply Range :=
  let rootScope := BuildSymbols stmts
  match findIdentAt stmts pos with
  | none => Reply.sent none
  | some ident =>
    match rootScope.Resolve ident.value with
    | none => Reply.noReply
    | some sym =>
      match sym.ident with
      | none => Reply.crashed
      | some declIdent =>
        let line := declIdent.tok.line - 1
        let col := declIdent.tok.column - 1
        Reply.sent (some ⟨⟨line, col⟩, ⟨line, col + (ident.value.length : Int)⟩⟩)

/-- The identifier-to-symbol resolution shared by handleHover and
handleDefinition: locate the identifier under the cursor, then resolve its
text in the root scope returned by BuildSymbols. -/
def querySymbol (stmts : List Stmt) (pos : Position) : Option Symbol :=
  match findIdentAt stmts pos with
  | none => none
  | some ident => (BuildSymbols stmts).Resolve ident.value

/-- Structured parse error of the external parser: one-based line and
column plus the offending token text and the rendered message. -/
structure ParseError where
  line : Int
  column : Int
  tokenLiteral : String
  message : String
  deriving DecidableEq

/-- tokenRange of src/server.go: zero-based diagnostic range for a parse
error; a zero-length token is widened to length one. -/
def tokenRange (pe : ParseError) : Range :=
  let startCol := pe.column - 1
  let length : Int := if pe.tokenLiteral.length = 0 then 1 else (pe.tokenLiteral.length : Int)
  { start := ⟨pe.line - 1, startCol⟩, stop := ⟨pe.line - 1, startCol + length⟩ }

/-- LSP diagnostic: range, severity (1 is error) and message. -/
structure Diagnostic where
  range : Range
  severity : Int
  message : String
  deriving DecidableEq

/-- The diagnostics list publishDiagnostics of src/server.go builds from the
structured parse errors of one re-parse. -/
def diagnosticsFor (parseErrors : List ParseError) : List Diagnostic :=
  parseErrors.map (fun pe => { range := tokenRange pe, severity := 1, message := pe.message })

/-- Names a statement defines in the scope the builder is currently filling
(nested bodies define theirs in child scopes). -/
def stmtDeclNames : Stmt → List String
  | .varStmt name _ _ => [name.value]
  | .varNoKeyword name _ => [name.value]
  | .constStmt name _ _ => [name.value]
  | .multiVarStmt names _ _ => names.map (fun nm => nm.value)
  | .multiVarNoKeyword names _ => names.map (fun nm => nm.value)
  | .multiConstStmt names _ _ => names.map (fun nm => nm.value)
  | .funcStmt name _ _ => [name.value]
  | .typeStmt _ name _ => [name.value]
  | _ => []

/-- Names declared by the top-level statements of a program. -/
def topLevelNames : List Stmt → List String
  | [] => []
  | s :: rest => stmtDeclNames s ++ topLevelNames rest

/-- Program whose function body declares x twice (a duplicate in one scope),
followed by a top-level declaration of y and a use of y. Rendered source:
line 1 fun f, lines 2 and 3 egg x int, line 5 egg y int, line 6 the use
of y. -/
def dupInFuncProgram : List Stmt :=
  [ .funcStmt ⟨⟨1, 5, "f"⟩, "f"⟩ []
      [ .varStmt ⟨⟨2, 10, "x"⟩, "x"⟩ (some (.identType "int")) none
      , .varStmt ⟨⟨3, 10, "x"⟩, "x"⟩ (some (.identType "int")) none ]
  , .varStmt ⟨⟨5, 8, "y"⟩, "y"⟩ (some (.identType "int")) none
  , .exprStmt (.identExpr ⟨⟨6, 2, "y"⟩, "y"⟩) ]

/-- Program declaring z only inside a function body, with a top-level use of
z at zero-based position (3, 0). -/
def nestedOnlyProgram : List Stmt :=
  [ .funcStmt ⟨⟨1, 5, "g"⟩, "g"⟩ []
      [ .varStmt ⟨⟨2, 8, "z"⟩, "z"⟩ (some (.identType "int")) none ]
  , .exprStmt (.identExpr ⟨⟨4, 2, "z"⟩, "z"⟩) ]

/-- Declaration egg count int on line 2 (token column 10 pointing past the
word count, which occupies zero-based columns 4 to 8) followed by a use of
count on line 3 (zero-based columns 0 to 4). -/
def countProgram : List Stmt :=
  [ .varStmt ⟨⟨2, 10, "count"⟩, "count"⟩ (some (.identType "int")) none
  , .exprStmt (.identExpr ⟨⟨3, 6, "count"⟩, "count"⟩) ]

/-- Single no-keyword declaration of x whose token spans zero-based column 0
of line 0. -/
def noKeywordProgram : List Stmt :=
  [ .varNoKeyword ⟨⟨1, 2, "x"⟩, "x"⟩ (some .intLit) ]

/-- Single type statement aliasing t2 to int. -/
def typeOnlyProgram : List Stmt :=
  [ .typeStmt ⟨1, 5, "type"⟩ ⟨⟨1, 10, "t2"⟩, "t2"⟩ (.identType "int") ]

/-- Single use of an identifier y that no scope declares. -/
def freeIdentProgram : List Stmt :=
  [ .exprStmt (.identExpr ⟨⟨1, 2, "y"⟩, "y"⟩) ]

/-- Sample inner binding of x for the shadowing facts. -/
def symInner : Symbol := ⟨.symVar, "x", none, some (.identType "int"), none⟩

/-- Sample outer binding of x for the shadowing facts. -/
def symOuter : Symbol := ⟨.symVar, "x", none, some (.identType "string"), none⟩

/-! Helper lemmas about lookup, define and the builder. -/

/-- Lookup can only return keys present in the list. -/
theorem lookupB_mem_keys : ∀ (syms : Bindings) {name : String} {v : Symbol},
    lookupB syms name = some v → name ∈ syms.map Prod.fst := by
  intro syms
  induction syms with
  | nil => intro name v h; exact Option.noConfusion h
  | cons p rest ih =>
    intro name v h
    obtain ⟨n, sym⟩ := p
    simp only [lookupB] at h
    by_cases he : n = name
    · subst he
      simp
    · rw [if_neg he] at h
      simp only [List.map_cons, List.mem_cons]
      exact Or.inr (ih h)

/-- A successful Define inserts at the front after checking absence. -/
theorem defineB_some {syms : Bindings} {sym : Symbol} {syms2 : Bindings}
    (hd : defineB syms sym = some syms2) :
    lookupB syms sym.name = none ∧ syms2 = (sym.name, sym) :: syms := by
  unfold defineB at hd
  cases hlk : lookupB syms sym.name with
  | none =>
    rw [hlk] at hd
    exact ⟨rfl, (Option.some.inj hd).symm⟩
  | some s =>
    rw [hlk] at hd
    exact Option.noConfusion hd

/-- Define never overwrites an existing binding. -/
theorem defineB_preserves {syms : Bindings} {sym : Symbol} {syms2 : Bindings}
    {name : String} {v : Symbol}
    (hv : lookupB syms name = some v) (hd : defineB syms sym = some syms2) :
    lookupB syms2 name = some v := by
  obtain ⟨hnone, rfl⟩ := defineB_some hd
  have hne : sym.name ≠ name := by
    intro he
    rw [he, hv] at hnone
    exact Option.noConfusion hnone
  simp only [lookupB, if_neg hne]
  exact hv

/-- A run of Define calls never overwrites an existing binding. -/
theorem defineAll_preserves : ∀ (symbols : List Symbol) (syms : Bindings)
    {name : String} {v : Symbol}, lookupB syms name = some v →
    lookupB (defineAll syms symbols).1 name = some v := by
  intro symbols
  induction symbols with
  | nil => intro syms name v hv; exact hv
  | cons sym rest ih =>
    intro syms name v hv
    cases hd : defineB syms sym with
    | none => simp only [defineAll, hd]; exact hv
    | some syms2 =>
      simp only [defineAll, hd]
      exact ih syms2 (defineB_preserves hv hd)

/-- One builder step never overwrites an existing binding of the current
scope. -/
theorem buildStmt_preserves (s : Stmt) (syms : Bindings) {name : String} {v : Symbol}
    (hv : lookupB syms name = some v) :
    lookupB (buildStmt syms s).1 name = some v := by
  cases s <;> simp only [buildStmt]
  case varStmt => exact defineAll_preserves _ syms hv
  case varNoKeyword => exact defineAll_preserves _ syms hv
  case constStmt => exact defineAll_preserves _ syms hv
  case multiVarStmt => exact defineAll_preserves _ syms hv
  case multiVarNoKeyword => exact defineAll_preserves _ syms hv
  case multiConstStmt => exact defineAll_preserves _ syms hv
  case funcStmt nm params body =>
    split
    next => exact hv
    next syms2 heq =>
      split
      next => exact defineB_preserves hv heq
      next => exact defineB_preserves hv heq
  case typeStmt tok nm type =>
    split
    next => exact hv
    next tn htn => exact defineAll_preserves _ syms hv
  case assignStmt => exact hv
  case multiAssignStmt => exact hv
  case indexAssignStmt => exact hv
  case exprStmt => exact hv
  case ifStmt => exact hv
  case forStmt => exact hv
  case whileStmt => exact hv
  case spawnStmt => exact hv

/-- The whole build never overwrites an existing binding of the scope being
filled. -/
theorem buildInScope_preserves : ∀ (stmts : List Stmt) (syms : Bindings)
    {name : String} {v : Symbol}, lookupB syms name = some v →
    lookupB (buildInScope syms stmts) name = some v := by
  intro stmts
  induction stmts with
  | nil => intro syms name v hv; simpa only [buildInScope] using hv
  | cons s rest ih =>
    intro syms name v hv
    simp only [buildInScope]
    split
    next syms2 hb =>
      have h2 := buildStmt_preserves s syms hv
      rw [hb] at h2
      exact ih syms2 h2
    next syms2 hb =>
      have h2 := buildStmt_preserves s syms hv
      rw [hb] at h2
      exact h2

/-- A run of Define calls adds only names of the listed symbols. -/
theorem defineAll_names : ∀ (symbols : List Symbol) (syms : Bindings)
    {name : String} {v : Symbol},
    lookupB (defineAll syms symbols).1 name = some v →
    lookupB syms name = some v ∨ name ∈ symbols.map Symbol.name := by
  intro symbols
  induction symbols with
  | nil => intro syms name v h; exact Or.inl h
  | cons sym rest ih =>
    intro syms name v h
    cases hd : defineB syms sym with
    | none =>
      simp only [defineAll, hd] at h
      exact Or.inl h
    | some syms2 =>
      simp only [defineAll, hd] at h
      rcases ih syms2 h with h2 | h2
      · obtain ⟨hnone, rfl⟩ := defineB_some hd
        by_cases he : sym.name = name
        · subst he
          exact Or.inr (by simp)
        · simp only [lookupB, if_neg he] at h2
          exact Or.inl h2
      · exact Or.inr (by simp [h2])

/-- One builder step adds only names the statement declares in the current
scope. -/
theorem buildStmt_names (s : Stmt) (syms : Bindings) {name : String} {v : Symbol}
    (h : lookupB (buildStmt syms s).1 name = some v) :
    lookupB syms name = some v ∨ name ∈ stmtDeclNames s := by
  cases s <;> simp only [buildStmt, stmtDeclNames] at h ⊢
  case varStmt nm t? v? =>
    rcases defineAll_names _ _ h with h2 | h2
    · exact Or.inl h2
    · exact Or.inr (by simpa using h2)
  case varNoKeyword nm v? =>
    rcases defineAll_names _ _ h with h2 | h2
    · exact Or.inl h2
    · exact Or.inr (by simpa using h2)
  case constStmt nm t? v? =>
    rcases defineAll_names _ _ h with h2 | h2
    · exact Or.inl h2
    · exact Or.inr (by simpa using h2)
  case multiVarStmt nms t? v? =>
    rcases defineAll_names _ _ h with h2 | h2
    · exact Or.inl h2
    · exact Or.inr (by simpa [List.map_map, Function.comp] using h2)
  case multiVarNoKeyword nms v? =>
    rcases defineAll_names _ _ h with h2 | h2
    · exact Or.inl h2
    · exact Or.inr (by simpa [List.map_map, Function.comp] using h2)
  case multiConstStmt nms t? v? =>
    rcases defineAll_names _ _ h with h2 | h2
    · exact Or.inl h2
    · exact Or.inr (by simpa [List.map_map, Function.comp] using h2)
  case funcStmt nm params body =>
    split at h
    next => exact Or.inl h
    next syms2 heq =>
      obtain ⟨hnone, rfl⟩ := defineB_some heq
      have h3 : lookupB ((nm.value,
          (⟨.symFunc, nm.value, some nm, none, none⟩ : Symbol)) :: syms) name = some v := by
        split at h
        next => exact h
        next => exact h
      by_cases he : nm.value = name
      · exact Or.inr (by simp [he])
      · simp only [lookupB, if_neg he] at h3
        exact Or.inl h3
  case typeStmt tok nm type =>
    split at h
    next => exact Or.inl h
    next tn htn =>
      rcases defineAll_names _ _ h with h2 | h2
      · exact Or.inl h2
      · exact Or.inr (by simpa using h2)
  case assignStmt => exact Or.inl h
  case multiAssignStmt => exact Or.inl h
  case indexAssignStmt => exact Or.inl h
  case exprStmt => exact Or.inl h
  case ifStmt => exact Or.inl h
  case forStmt => exact Or.inl h
  case whileStmt => exact Or.inl h
  case spawnStmt => exact Or.inl h

/-- The build fills the given scope only with names its top-level statements
declare; nested bodies go to child scopes that are dropped. -/
theorem buildInScope_names : ∀ (stmts : List Stmt) (syms : Bindings)
    {name : String} {v : Symbol},
    lookupB (buildInScope syms stmts) name = some v →
    lookupB syms name = some v ∨ name ∈ topLevelNames stmts := by
  intro stmts
  induction stmts with
  | nil =>
    intro syms name v h
    exact Or.inl (by simpa only [buildInScope] using h)
  | cons s rest ih =>
    intro syms name v h
    simp only [buildInScope] at h
    split at h
    next syms2 hb =>
      rcases ih syms2 h with h2 | h2
      · have h3 : lookupB (buildStmt syms s).1 name = some v := by rw [hb]; exact h2
        rcases buildStmt_names s syms h3 with h4 | h4
        · exact Or.inl h4
        · exact Or.inr (by simp [topLevelNames, h4])
      · exact Or.inr (by simp [topLevelNames, h2])
    next syms2 hb =>
      have h3 : lookupB (buildStmt syms s).1 name = some v := by rw [hb]; exact h
      rcases buildStmt_names s syms h3 with h4 | h4
      · exact Or.inl h4
      · exact Or.inr (by simp [topLevelNames, h4])

/-- The builtin bindings hold exactly the builtin type names. -/
theorem rootBuiltins_names {name : String} {v : Symbol}
    (h : lookupB rootBuiltins name = some v) : name ∈ builtinNames := by
  have hk := lookupB_mem_keys rootBuiltins h
  have hmap : rootBuiltins.map Prod.fst = ["arr", "bool", "string", "float", "int"] := by rfl
  rw [hmap] at hk
  simp only [List.mem_cons, List.not_mem_nil, or_false] at hk
  rcases hk with rfl | rfl | rfl | rfl | rfl <;> simp [builtinNames]

/-! Case lemmas for the query pipeline, stated on symbolic programs. -/

/-- querySymbol once the identifier under the cursor is known. -/
theorem querySymbol_found (stmts : List Stmt) (pos : Position) (ident : Identifier)
    (h : findIdentAt stmts pos = some ident) :
    querySymbol stmts pos = (BuildSymbols stmts).Resolve ident.value := by
  unfold querySymbol
  simp only [h]

/-- handleHover when no identifier is under the cursor. -/
theorem hoverReply_noIdent (stmts : List Stmt) (pos : Position)
    (h : findIdentAt stmts pos = none) :
    hoverReply stmts pos = Reply.sent none := by
  unfold hoverReply
  simp only [h]

/-- handleHover when the located identifier resolves to no symbol. -/
theorem hoverReply_unresolved (stmts : List Stmt) (pos : Position) (ident : Identifier)
    (h1 : findIdentAt stmts pos = some ident)
    (h2 : (BuildSymbols stmts).Resolve ident.value = none) :
    hoverReply stmts pos = Reply.sent none := by
  unfold hoverReply
  simp only [h1, h2]

/-- handleHover when the located identifier resolves. -/
theorem hoverReply_resolved (stmts : List Stmt) (pos : Position) (ident : Identifier)
    (sym : Symbol) (h1 : findIdentAt stmts pos = some ident)
    (h2 : (BuildSymbols stmts).Resolve ident.value = some sym) :
    hoverReply stmts pos =
      Reply.sent (some (hoverFromSymbol (lazyInfer (BuildSymbols stmts) sym))) := by
  unfold hoverReply
  simp only [h1, h2]

/-- handleDefinition when no identifier is under the cursor. -/
theorem definitionReply_noIdent (stmts : List Stmt) (pos : Position)
    (h : findIdentAt stmts pos = none) :
    definitionReply stmts pos = Reply.sent none := by
  unfold definitionReply
  simp only [h]

/-- handleDefinition when the located identifier resolves to no symbol: the
handler returns without sending any response. -/
theorem definitionReply_unresolved (stmts : List Stmt) (pos : Position) (ident : Identifier)
    (h1 : findIdentAt stmts pos = some ident)
    (h2 : (BuildSymbols stmts).Resolve ident.value = none) :
    definitionReply stmts pos = Reply.noReply := by
  unfold definitionReply
  simp only [h1, h2]

/-- handleDefinition when the located identifier resolves to a user symbol. -/
theorem definitionReply_resolved (stmts : List Stmt) (pos : Position) (ident : Identifier)
    (sym : Symbol) (declIdent : Identifier)
    (h1 : findIdentAt stmts pos = some ident)
    (h2 : (BuildSymbols stmts).Resolve ident.value = some sym)
    (h3 : sym.ident = some declIdent) :
    definitionReply stmts pos = Reply.sent (some
      ⟨⟨declIdent.tok.line - 1, declIdent.tok.column - 1⟩,
       ⟨declIdent.tok.line - 1, declIdent.tok.column - 1 + (ident.value.length : Int)⟩⟩) := by
  unfold definitionReply
  simp only [h1, h2, h3]

/-- Scope.Resolve returns the first match over the frames of the chain,
innermost first. -/
theorem Scope.Resolve_eq_frames (s : Scope) (name : String) :
    s.Resolve name = s.frames.findSome? (fun syms => lookupB syms name) := by
  induction s with
  | root syms =>
    cases h : lookupB syms name <;>
      simp [Scope.Resolve, Scope.frames, List.findSome?_cons, h]
  | child syms parent ih =>
    cases h : lookupB syms name <;>
      simp [Scope.Resolve, Scope.frames, List.findSome?_cons, h, ih]

/-- A true isIdent pins the type node down to the named identifier type. -/
theorem isIdent_eq {t : TypeNode} {name : String} (h : isIdent t name = true) :
    t = .identType name := by
  cases t with
  | identType n =>
    simp only [isIdent, beq_iff_eq] at h
    rw [h]
  | arrayType e => simp [isIdent] at h
  | structType f => simp [isIdent] at h

/-- The element check of the array literal rule, phrased with List.all. -/
theorem elemsMatch_eq_all (scope : Scope) (t : TypeNode) :
    ∀ es : List Expr, elemsMatch scope t es =
      es.all (fun el =>
        match inferExprType scope el with
        | none => false
        | some te => sameTypeNode t te) := by
  intro es
  induction es with
  | nil => simp [elemsMatch]
  | cons el rest ih =>
    simp only [elemsMatch, List.all_cons, ih]
    cases h : inferExprType scope el <;> simp [h]

/-! The claims. -/

/-- C6: Resolve walks from the given scope outward through parent links and
returns the first (innermost) binding found, or not-found exactly when no
scope in the chain binds the name; a name bound in both an inner and an
outer scope resolves to the inner symbol from the inner scope, and when the
inner scope does not bind the name the resolution from the inner scope is
the resolution from the outer scope, so a parent scope never observes child
bindings. -/
theorem c6_resolve_innermost_first (s : Scope) (name : String) :
    s.Resolve name = s.frames.findSome? (fun syms => lookupB syms name)
    ∧ (s.Resolve name = none ↔ ∀ syms ∈ s.frames, lookupB syms name = none)
    ∧ (∀ (inner : Bindings) (outer : Scope) (sym : Symbol),
        lookupB inner name = some sym →
        (Scope.child inner outer).Resolve name = some sym)
    ∧ (∀ (inner : Bindings) (outer : Scope), lookupB inner name = none →
        (Scope.child inner outer).Resolve name = outer.Resolve name) := by
  refine ⟨Scope.Resolve_eq_frames s name, ?_, ?_, ?_⟩
  · rw [Scope.Resolve_eq_frames s name]
    exact List.findSome?_eq_none_iff
  · intro inner outer sym h
    simp [Scope.Resolve, h]
  · intro inner outer h
    simp [Scope.Resolve, h]

/-- Witness for C6 at concrete scopes: x bound in both an inner and an outer
scope resolves to the inner symbol from the inner scope, and an inner scope
without a binding defers to the outer scope. -/
theorem c6_resolve_innermost_first_witness :
    (Scope.child [("x", symInner)] (Scope.root [("x", symOuter)])).Resolve "x" = some symInner
    ∧ (Scope.child [] (Scope.root [("x", symOuter)])).Resolve "x"
        = (Scope.root [("x", symOuter)]).Resolve "x" :=
  ⟨(c6_resolve_innermost_first (Scope.root []) "x").2.2.1 _ _ _ (by rfl),
   (c6_resolve_innermost_first (Scope.root []) "x").2.2.2 _ _ (by rfl)⟩

/-- C7: for a binary expression, if either operand infers to unknown the
whole expression is unknown; structurally equal operand types give that
type; an integer and floating-point pair (either order) gives
floating-point; any other mismatch gives unknown; and the concrete examples
1 + 2.5, 1 + 2 and a string plus an integer infer to float, int and unknown
respectively. -/
theorem c7_infix_inference_rules (scope : Scope) :
    (∀ left right, inferExprType scope left = none ∨ inferExprType scope right = none →
        inferExprType scope (.infixExpr left right) = none)
    ∧ (∀ left right l r, inferExprType scope left = some l →
        inferExprType scope right = some r → sameTypeNode l r = true →
        inferExprType scope (.infixExpr left right) = some l)
    ∧ (∀ left right l r, inferExprType scope left = some l →
        inferExprType scope right = some r →
        ((isIdent l "int" && isIdent r "float") || (isIdent l "float" && isIdent r "int")) = true →
        inferExprType scope (.infixExpr left right) = some (.identType "float"))
    ∧ (∀ left right l r, inferExprType scope left = some l →
        inferExprType scope right = some r → sameTypeNode l r = false →
        ((isIdent l "int" && isIdent r "float") || (isIdent l "float" && isIdent r "int")) = false →
        inferExprType scope (.infixExpr left right) = none)
    ∧ inferExprType scope (.infixExpr .intLit .floatLit) = some (.identType "float")
    ∧ inferExprType scope (.infixExpr .intLit .intLit) = some (.identType "int")
    ∧ inferExprType scope (.infixExpr .stringLit .intLit) = none := by
  refine ⟨?_, ?_, ?_, ?_, ?_, ?_, ?_⟩
  · intro left right h
    rcases h with h | h <;> cases h2 : inferExprType scope left <;>
      cases h3 : inferExprType scope right <;>
      simp_all [inferExprType]
  · intro left right l r h1 h2 h3
    simp [inferExprType, h1, h2, h3]
  · intro left right l r h1 h2 h3
    have hneq : sameTypeNode l r = false := by
      rcases Bool.or_eq_true _ _ |>.mp h3 with h4 | h4
      · obtain ⟨ha, hb⟩ := Bool.and_eq_true _ _ |>.mp h4
        rw [isIdent_eq ha, isIdent_eq hb]
        simp [sameTypeNode]
      · obtain ⟨ha, hb⟩ := Bool.and_eq_true _ _ |>.mp h4
        rw [isIdent_eq ha, isIdent_eq hb]
        simp [sameTypeNode]
    simp [inferExprType, h1, h2, hneq, h3]
  · intro left right l r h1 h2 h3 h4
    simp [inferExprType, h1, h2, h3, h4]
  · simp [inferExprType, sameTypeNode, isIdent]
  · simp [inferExprType, sameTypeNode]
  · simp [inferExprType, sameTypeNode, isIdent]

/-- Witness for C7 at concrete operands: two booleans are structurally equal
so the expression infers to boolean. -/
theorem c7_infix_inference_rules_witness :
    inferExprType (Scope.root []) (.infixExpr .boolLit .boolLit)
      = some (.identType "bool") :=
  (c7_infix_inference_rules (Scope.root [])).2.1 .boolLit .boolLit
    (.identType "bool") (.identType "bool")
    (by simp [inferExprType]) (by simp [inferExprType]) (by simp [sameTypeNode])

/-- C8: an empty array literal infers to unknown; a non-empty one infers the
first element and requires every remaining element to infer to a
structurally identical type, array types being equal iff their element
types are, identifier types iff their names match; on success the result is
array-of-element-type, and the concrete examples behave accordingly. -/
theorem c8_array_literal_inference (scope : Scope) :
    inferExprType scope (.arrayLit []) = none
    ∧ (∀ e es t, inferExprType scope e = some t →
        inferExprType scope (.arrayLit (e :: es)) =
          (if es.all (fun el =>
              match inferExprType scope el with
              | none => false
              | some te => sameTypeNode t te)
           then some (.arrayType t) else none))
    ∧ (∀ e es, inferExprType scope e = none →
        inferExprType scope (.arrayLit (e :: es)) = none)
    ∧ (∀ a b, sameTypeNode (.arrayType a) (.arrayType b) = sameTypeNode a b)
    ∧ (∀ n m, sameTypeNode (.identType n) (.identType m) = (n == m))
    ∧ inferExprType scope (.arrayLit [.intLit, .intLit, .intLit])
        = some (.arrayType (.identType "int"))
    ∧ inferExprType scope (.arrayLit [.intLit, .stringLit]) = none := by
  refine ⟨by simp [inferExprType], ?_, ?_, fun a b => rfl, fun n m => rfl, ?_, ?_⟩
  · intro e es t h
    simp only [inferExprType, h]
    rw [elemsMatch_eq_all]
  · intro e es h
    simp [inferExprType, h]
  · simp [inferExprType, elemsMatch, sameTypeNode]
  · simp [inferExprType, elemsMatch, sameTypeNode]

/-- Witness for C8 at a concrete literal: a two-element integer array infers
to array-of-integer. -/
theorem c8_array_literal_inference_witness :
    inferExprType (Scope.root []) (.arrayLit [.intLit, .intLit])
      = some (.arrayType (.identType "int")) := by
  have h := (c8_array_literal_inference (Scope.root [])).2.1 .intLit [.intLit]
    (.identType "int") (by simp [inferExprType])
  simpa [inferExprType, sameTypeNode] using h

/-- C9: every structured parse error at one-based line L and column C with a
token of length n yields a diagnostic of severity 1 whose zero-based range
runs from (L-1, C-1) to (L-1, C-1 + max(n, 1)); at one-based (1, 5) with a
three-character token the range is (0,4) to (0,7). -/
theorem c9_diagnostic_range :
    (∀ (parseErrors : List ParseError) (pe : ParseError), pe ∈ parseErrors →
        (⟨⟨⟨pe.line - 1, pe.column - 1⟩,
           ⟨pe.line - 1, pe.column - 1 + max (pe.tokenLiteral.length : Int) 1⟩⟩,
          1, pe.message⟩ : Diagnostic) ∈ diagnosticsFor parseErrors)
    ∧ tokenRange ⟨1, 5, "abc", "msg"⟩ = ⟨⟨0, 4⟩, ⟨0, 7⟩⟩ := by
  constructor
  · intro parseErrors pe hpe
    have hr : tokenRange pe =
        ⟨⟨pe.line - 1, pe.column - 1⟩,
         ⟨pe.line - 1, pe.column - 1 + max (pe.tokenLiteral.length : Int) 1⟩⟩ := by
      unfold tokenRange
      by_cases h : pe.tokenLiteral.length = 0
      · simp [h]
      · have h1 : 1 ≤ (pe.tokenLiteral.length : Int) := by omega
        rw [if_neg h, max_eq_left h1]
    rw [← hr]
    exact List.mem_map_of_mem
      (fun pe => ({ range := tokenRange pe, severity := 1, message := pe.message } : Diagnostic))
      hpe
  · decide

/-- Witness for C9 at a concrete error list. -/
theorem c9_diagnostic_range_witness :
    (⟨⟨⟨0, 4⟩, ⟨0, 7⟩⟩, 1, "bad"⟩ : Diagnostic)
      ∈ diagnosticsFor [⟨1, 5, "abc", "bad"⟩] := by
  have h := c9_diagnostic_range.1 [⟨1, 5, "abc", "bad"⟩] ⟨1, 5, "abc", "bad"⟩ (by simp)
  have hlen : (("abc".length : Int)) = 3 := by decide
  simpa [hlen] using h

/-- C10: for every input statement sequence the root scope returned by
BuildSymbols maps each built-in primitive type name to its pre-populated
type-kind symbol, independently of the user statements, so no user
declaration can redefine these names in the root scope. -/
theorem c10_builtin_types_never_redefined (stmts : List Stmt) (t : String)
    (ht : t ∈ builtinNames) :
    (BuildSymbols stmts).Resolve t = some (builtinSymbol t) := by
  have hbase : lookupB rootBuiltins t = some (builtinSymbol t) := by
    simp only [builtinNames, List.mem_cons, List.not_mem_nil, or_false] at ht
    rcases ht with rfl | rfl | rfl | rfl | rfl <;> rfl
  show lookupB (buildInScope rootBuiltins stmts) t = some (builtinSymbol t)
  exact buildInScope_preserves stmts rootBuiltins hbase

/-- Witness for C10 on a concrete program that declares a variable. -/
theorem c10_builtin_types_never_redefined_witness :
    (BuildSymbols [Stmt.varStmt ⟨⟨1, 8, "count"⟩, "count"⟩
        (some (.identType "int")) none]).Resolve "int" = some (builtinSymbol "int") :=
  c10_builtin_types_never_redefined _ "int" (by simp [builtinNames])

/-- C1 counterexample: dupInFuncProgram declares x twice in the same
function-body scope, yet the build does not abort entirely: the top-level
declaration of y that follows the duplicate is still defined in the root
scope, and the hover query at the use of y returns a result rather than
"no result". -/
theorem c1_counterexample_nested_duplicate :
    (BuildSymbols dupInFuncProgram).Resolve "y"
      = some ⟨.symVar, "y", some ⟨⟨5, 8, "y"⟩, "y"⟩, some (.identType "int"), none⟩
    ∧ hoverReply dupInFuncProgram ⟨5, 0⟩ ≠ Reply.sent none :=
  ⟨rfl, by decide⟩

/-- C1 (amended): a duplicate declaration aborts only the innermost scope
whose build encounters it. Within one buildInScope call, a statement whose
processing panics ends that call with the bindings accumulated so far,
skipping the remaining statements of that scope only; a statement processed
without a panic lets the call continue; and a function statement reports a
panic to its enclosing scope only from defining the function name itself
(with no parameters, never from its body), so duplicates inside nested
bodies leave the enclosing build running. -/
theorem c1_amended_duplicate_aborts_innermost_scope (syms : Bindings) (s : Stmt)
    (rest : List Stmt) :
    ((buildStmt syms s).2 = false → buildInScope syms (s :: rest) = (buildStmt syms s).1)
    ∧ ((buildStmt syms s).2 = true →
        buildInScope syms (s :: rest) = buildInScope (buildStmt syms s).1 rest)
    ∧ (∀ (name : Identifier) (body : List Stmt),
        (buildStmt syms (.funcStmt name [] body)).2 =
          (defineB syms ⟨.symFunc, name.value, some name, none, none⟩).isSome) := by
  refine ⟨?_, ?_, ?_⟩
  · intro hfalse
    simp only [buildInScope]
    cases hb : buildStmt syms s with
    | mk syms2 ok =>
      cases ok
      · rfl
      · rw [hb] at hfalse
        simp at hfalse
  · intro htrue
    simp only [buildInScope]
    cases hb : buildStmt syms s with
    | mk syms2 ok =>
      cases ok
      · rw [hb] at htrue
        simp at htrue
      · rfl
  · intro name body
    cases hd : defineB syms ⟨.symFunc, name.value, some name, none, none⟩ with
    | none => simp [buildStmt, hd]
    | some syms2 => simp [buildStmt, hd, defineAll]

/-- Witness for C1 (amended) at concrete inputs: a duplicate of a stops the
scope at the bindings built so far, and a function definition with an empty
parameter list reports success exactly when its own name is fresh. -/
theorem c1_amended_duplicate_aborts_innermost_scope_witness :
    buildInScope [("a", builtinSymbol "a")]
        [.varStmt ⟨⟨1, 5, "a"⟩, "a"⟩ none none, .varStmt ⟨⟨2, 5, "b"⟩, "b"⟩ none none]
      = (buildStmt [("a", builtinSymbol "a")] (.varStmt ⟨⟨1, 5, "a"⟩, "a"⟩ none none)).1
    ∧ (buildStmt [("a", builtinSymbol "a")] (.funcStmt ⟨⟨1, 5, "f"⟩, "f"⟩ [] [])).2
      = (defineB [("a", builtinSymbol "a")]
          ⟨.symFunc, "f", some ⟨⟨1, 5, "f"⟩, "f"⟩, none, none⟩).isSome := by
  constructor
  · exact (c1_amended_duplicate_aborts_innermost_scope _ _ _).1
      (by simp [buildStmt, defineAll, defineB, lookupB, builtinSymbol])
  · exact (c1_amended_duplicate_aborts_innermost_scope [("a", builtinSymbol "a")]
      (.varStmt ⟨⟨1, 5, "a"⟩, "a"⟩ none none) []).2.2 ⟨⟨1, 5, "f"⟩, "f"⟩ []

/-- C2: the hover and definition handlers resolve the located identifier
exclusively against the root scope returned by BuildSymbols; the child
scopes built for nested blocks are unreachable from it, so an identifier
declared only inside a nested scope resolves to no symbol, and any symbol a
query does return is a builtin or a top-level declaration. -/
theorem c2_queries_resolve_only_in_root (stmts : List Stmt) (pos : Position)
    (ident : Identifier) (hfind : findIdentAt stmts pos = some ident) :
    querySymbol stmts pos = (BuildSymbols stmts).Resolve ident.value
    ∧ (ident.value ∉ builtinNames → ident.value ∉ topLevelNames stmts →
        querySymbol stmts pos = none)
    ∧ (∀ sym, querySymbol stmts pos = some sym →
        ident.value ∈ builtinNames ∨ ident.value ∈ topLevelNames stmts) := by
  have hq := querySymbol_found stmts pos ident hfind
  refine ⟨hq, ?_, ?_⟩
  · intro hb ht
    rw [hq]
    show lookupB (buildInScope rootBuiltins stmts) ident.value = none
    cases hl : lookupB (buildInScope rootBuiltins stmts) ident.value with
    | none => rfl
    | some sym =>
      rcases buildInScope_names stmts rootBuiltins hl with h | h
      · exact absurd (rootBuiltins_names h) hb
      · exact absurd h ht
  · intro sym hs
    rw [hq] at hs
    have hs2 : lookupB (buildInScope rootBuiltins stmts) ident.value = some sym := hs
    rcases buildInScope_names stmts rootBuiltins hs2 with h | h
    · exact Or.inl (rootBuiltins_names h)
    · exact Or.inr h

/-- Witness for C2: z is declared only inside the function body of
nestedOnlyProgram, so the query at its top-level use resolves to no
symbol. -/
theorem c2_queries_resolve_only_in_root_witness :
    querySymbol nestedOnlyProgram ⟨3, 0⟩ = none :=
  (c2_queries_resolve_only_in_root nestedOnlyProgram ⟨3, 0⟩ ⟨⟨4, 2, "z"⟩, "z"⟩
    rfl).2.1 (by decide) (by decide)

/-- C3: in countProgram the declaration token of count stores the after-token
column 10, so its text occupies zero-based columns 4 to 8 of line 1
(positions 4 inside, 9 outside); yet the definition query at the use of
count returns the range (1,9) to (1,14), which starts one past the last
character of the identifier instead of at its first character, because
handleDefinition does not subtract the token length from the stored
column. -/
theorem c3_definition_range_misses_declaration :
    definitionReply countProgram ⟨2, 2⟩ = Reply.sent (some ⟨⟨1, 9⟩, ⟨1, 14⟩⟩)
    ∧ posInsideTok ⟨2, 10, "count"⟩ ⟨1, 4⟩ = true
    ∧ posInsideTok ⟨2, 10, "count"⟩ ⟨1, 9⟩ = false
    ∧ (⟨⟨1, 9⟩, ⟨1, 14⟩⟩ : Range) ≠ ⟨⟨1, 4⟩, ⟨1, 9⟩⟩ := by
  decide

/-- C4: the position resolver misses identifiers the spec requires it to
find and returns results where the spec requires none: the no-keyword
declaration of x in noKeywordProgram is not visited, so the query at the
exact span of x returns nothing; and the type statement of typeOnlyProgram
returns its synthetic identifier for every position, including positions on
no token at all. -/
theorem c4_position_lookup_gaps :
    posInsideTok ⟨1, 2, "x"⟩ ⟨0, 0⟩ = true
    ∧ findIdentAt noKeywordProgram ⟨0, 0⟩ = none
    ∧ findIdentAt typeOnlyProgram ⟨7, 42⟩ = some ⟨⟨1, 5, "type"⟩, "int"⟩ := by
  decide

/-- C5: when the located identifier resolves to no symbol, the hover handler
sends an explicit empty result but the definition handler returns without
sending any response at all, as the query at the undeclared y of
freeIdentProgram shows. -/
theorem c5_definition_drops_reply_on_unresolved :
    definitionReply freeIdentProgram ⟨0, 0⟩ = Reply.noReply
    ∧ hoverReply freeIdentProgram ⟨0, 0⟩ = Reply.sent none := by
  decide

end Elen
